import Mathlib

/-!
Verification development for the talisman streaming template engine.

The definitions below are a shallow embedding of the engine source:
  - lib/RenderQueue.js : the tokenizer (tag regex, brace-count correction)
  - lib/Block.js       : template-content preprocessing (CDATA, comments)
  - lib/Renderer.js    : element resolution, escaping and mask application,
                         visibility gate, error propagation, array iteration
  - lib/talisman.js    : the public facade (seekBlockByName and the api object)

Template text and data values are modelled as List Char (JS strings);
variable and mask names are Lean String values.  Stateful stream code is
modelled by explicit recursion over queues with explicit state.
-/

namespace Talisman

/-! ## Character classes of the tag regex

RenderQueue.js line 52:
  const tagRegex = /\x7b\x7b?([a-zA-Z][a-zA-Z0-9_\-\.\|]*[a-zA-Z0-9])\x7d\x7d?/
-/

/-- Matches the regex class [a-zA-Z]. -/
def isTagAlpha (c : Char) : Bool :=
  (('a' ≤ c) && (c ≤ 'z')) || (('A' ≤ c) && (c ≤ 'Z'))

/-- Matches the regex class [a-zA-Z0-9]. -/
def isTagAlnum (c : Char) : Bool :=
  isTagAlpha c || (('0' ≤ c) && (c ≤ '9'))

/-- Matches the regex class [a-zA-Z0-9_\-\.\|] of interior tag-name characters. -/
def isTagInterior (c : Char) : Bool :=
  isTagAlnum c || (c = '_') || (c = '-') || (c = '.') || (c = '|')

/-! ## Matching the tag regex at one position

The regex is matched with standard leftmost, greedy-with-backtracking
semantics.  At one start position the pattern is: one or two opening
braces (greedy), a letter, a greedy run of interior characters, a final
alphanumeric character, one closing brace, and optionally (greedy) a
second closing brace.
-/

/-- Consumes the closing braces: one mandatory, a second one greedily.
Returns (number of braces consumed, remaining text). -/
def matchClose (v : List Char) : Option (Nat × List Char) :=
  match v with
  | c :: rest =>
    if c = '}' then
      match rest with
      | c2 :: r2 => if c2 = '}' then some (2, r2) else some (1, rest)
      | [] => some (1, [])
    else none
  | [] => none

/-- Consumes `interior* alnum` followed by the closing braces, greedily:
extending the interior run is preferred over stopping, which reproduces the
backtracking regex choosing the longest name.  Returns
(name characters consumed, closing brace count, remaining text). -/
def matchNameTail : List Char → Option (List Char × Nat × List Char)
  | c :: rest =>
    if isTagInterior c then
      match matchNameTail rest with
      | some (tail, cl, r) => some (c :: tail, cl, r)
      | none =>
        if isTagAlnum c then
          match matchClose rest with
          | some (cl, r) => some ([c], cl, r)
          | none => none
        else none
    else none
  | [] => none

/-- Consumes a whole tag name (leading letter, then `matchNameTail`) plus
its closing braces. -/
def matchNameClose (v : List Char) : Option (List Char × Nat × List Char) :=
  match v with
  | c0 :: rest =>
    if isTagAlpha c0 then
      match matchNameTail rest with
      | some (tail, cl, r) => some (c0 :: tail, cl, r)
      | none => none
    else none
  | [] => none

/-- Tries to match the whole tag regex at the head of the text.  Returns
(opening brace count, name, closing brace count, remaining text).  With two
opening braces present the single-brace alternative cannot match (the
second brace is not a letter), so no further backtracking is needed. -/
def matchTagHere (s : List Char) : Option (Nat × List Char × Nat × List Char) :=
  match s with
  | c :: rest =>
    if c = '{' then
      match rest with
      | c2 :: rest2 =>
        if c2 = '{' then
          match matchNameClose rest2 with
          | some (n, cl, r) => some (2, n, cl, r)
          | none => none
        else
          match matchNameClose rest with
          | some (n, cl, r) => some (1, n, cl, r)
          | none => none
      | [] => none
    else none
  | [] => none

/-- Leftmost match of the tag regex: try each position left to right.
Returns (text before the match, opening braces, name, closing braces,
remaining text after the match). -/
def findTag : List Char → Option (List Char × Nat × List Char × Nat × List Char)
  | [] => none
  | c :: cs =>
    match matchTagHere (c :: cs) with
    | some (o, n, cl, r) => some ([], o, n, cl, r)
    | none =>
      match findTag cs with
      | some (b, o, n, cl, r) => some (c :: b, o, n, cl, r)
      | none => none

/-! ## Tag objects and the element queue

RenderQueue._read builds a little tag object (lines 89-108): the escape
flag, then the name is split on the pipe character into the mask chain, and
the remaining name is split on the dot character into the deep-link path.
-/

/-- One parsed placeholder, as produced by RenderQueue._read. -/
structure Tag where
  name : String
  escape : Bool
  masks : List String
  deeplinks : List String
deriving Repr, DecidableEq

/-- One element of the render queue: a literal text run or a tag. -/
inductive Elem where
  | text (s : List Char)
  | tag (t : Tag)
deriving Repr, DecidableEq

/-- JS String.prototype.split on a single separator character:
jsSplit sep (toList "a|b") = [toList "a", toList "b"], and a text without
the separator yields a one-element list. -/
def jsSplit (sep : Char) : List Char → List (List Char)
  | [] => [[]]
  | c :: rest =>
    match jsSplit sep rest with
    | h :: t => if c = sep then [] :: h :: t else (c :: h) :: t
    | [] => if c = sep then [[], []] else [[c]]

/-- Builds the tag object from the matched name (RenderQueue.js lines 89-108).
The name is split on the pipe first (first piece is the variable name, the
rest are mask names), then the remaining name is split on the dot (first
piece is the variable name, the rest is the deep-link path).  When no
separator occurs the split returns the whole name and the chains are empty,
exactly as the undefined masks and deeplinks fields behave in the source. -/
def mkTag (escape : Bool) (nameChars : List Char) : Tag :=
  match jsSplit '|' nameChars with
  | [] => { name := String.mk nameChars, escape := escape, masks := [], deeplinks := [] }
  | n1 :: maskPieces =>
    match jsSplit '.' n1 with
    | [] => { name := String.mk n1, escape := escape,
              masks := maskPieces.map String.mk, deeplinks := [] }
    | n2 :: linkPieces =>
      { name := String.mk n2, escape := escape,
        masks := maskPieces.map String.mk, deeplinks := linkPieces.map String.mk }

/-! ## The tokenizer loop

RenderQueue._read (lines 44-119) consumes the template text: it finds the
leftmost tag match, fixes up the brace count (lines 78-87), pushes the text
before the tag and the tag itself, and continues on the rest.  The
corrections are:
  - two opening and two closing braces: escape = false;
  - two opening braces but one closing: the extra leading brace is literal
    text of the preceding run (match start is shifted forward by one);
  - one opening brace but two closing: the extra trailing brace is literal
    text of the following run (the matched span is shortened by one).
The loop is fueled; fuel at least the length of the text is always enough
because every match consumes at least one character.
-/

def tokenize : Nat → List Char → List Elem
  | 0, _ => []
  | _ + 1, [] => []
  | fuel + 1, c :: cs =>
    match findTag (c :: cs) with
    | none => [Elem.text (c :: cs)]
    | some (before, o, name, cl, rest) =>
      let esc := !(o == 2 && cl == 2)
      let before2 := if o == 2 && cl == 1 then before ++ ['{'] else before
      let rest2 := if o == 1 && cl == 2 then '}' :: rest else rest
      Elem.text before2 :: Elem.tag (mkTag esc name) :: tokenize fuel rest2

/-- Tokenizes a whole template text (fuel = length is always sufficient). -/
def tokenizeAll (s : List Char) : List Elem := tokenize s.length s

/-! ## Length accounting for the matcher

These lemmas justify that the fuel never runs out: every successful match
consumes the opening braces, a name of at least two characters, and the
closing braces.
-/

theorem matchClose_len {v : List Char} {cl : Nat} {r : List Char}
    (h : matchClose v = some (cl, r)) :
    v.length = cl + r.length ∧ 1 ≤ cl ∧ cl ≤ 2 := by
  match v with
  | [] => simp [matchClose] at h
  | c :: rest =>
    by_cases hc : c = '}'
    · match rest with
      | [] =>
        simp [matchClose, hc] at h
        obtain ⟨h1, h2⟩ := h
        subst h1; subst h2; simp
      | c2 :: r2 =>
        by_cases hc2 : c2 = '}'
        · simp [matchClose, hc, hc2] at h
          obtain ⟨h1, h2⟩ := h
          subst h1; subst h2; simp; omega
        · simp [matchClose, hc, hc2] at h
          obtain ⟨h1, h2⟩ := h
          subst h1; subst h2; simp; omega
    · simp [matchClose, hc] at h

theorem matchNameTail_len {v tail : List Char} {cl : Nat} {r : List Char}
    (h : matchNameTail v = some (tail, cl, r)) :
    v.length = tail.length + cl + r.length ∧ 1 ≤ tail.length ∧ 1 ≤ cl ∧ cl ≤ 2 := by
  induction v generalizing tail cl r with
  | nil => simp [matchNameTail] at h
  | cons c rest ih =>
    by_cases hint : isTagInterior c
    · rcases hrec : matchNameTail rest with _ | ⟨⟨tail0, cl0, r0⟩⟩
      · by_cases halnum : isTagAlnum c
        · rcases hcl : matchClose rest with _ | ⟨⟨cl1, r1⟩⟩
          · simp [matchNameTail, hint, hrec, halnum, hcl] at h
          · simp [matchNameTail, hint, hrec, halnum, hcl] at h
            obtain ⟨h1, h2, h3⟩ := h
            subst h1; subst h2; subst h3
            obtain ⟨e1, e2, e3⟩ := matchClose_len hcl
            simp; omega
        · simp [matchNameTail, hint, hrec, halnum] at h
      · simp [matchNameTail, hint, hrec] at h
        obtain ⟨h1, h2, h3⟩ := h
        subst h1; subst h2; subst h3
        obtain ⟨e1, e2, e3, e4⟩ := ih hrec
        simp; omega
    · simp [matchNameTail, hint] at h

theorem matchNameClose_len {v n : List Char} {cl : Nat} {r : List Char}
    (h : matchNameClose v = some (n, cl, r)) :
    v.length = n.length + cl + r.length ∧ 2 ≤ n.length ∧ 1 ≤ cl ∧ cl ≤ 2 := by
  match v with
  | [] => simp [matchNameClose] at h
  | c0 :: rest =>
    by_cases ha : isTagAlpha c0
    · rcases ht : matchNameTail rest with _ | ⟨⟨tail0, cl0, r0⟩⟩
      · simp [matchNameClose, ha, ht] at h
      · simp [matchNameClose, ha, ht] at h
        obtain ⟨h1, h2, h3⟩ := h
        subst h1; subst h2; subst h3
        obtain ⟨e1, e2, e3, e4⟩ := matchNameTail_len ht
        simp; omega
    · simp [matchNameClose, ha] at h

theorem matchTagHere_len {s n : List Char} {o cl : Nat} {r : List Char}
    (h : matchTagHere s = some (o, n, cl, r)) :
    s.length = o + n.length + cl + r.length ∧ 1 ≤ o ∧ o ≤ 2 ∧
      2 ≤ n.length ∧ 1 ≤ cl ∧ cl ≤ 2 := by
  match s with
  | [] => simp [matchTagHere] at h
  | c :: rest =>
    by_cases hc : c = '{'
    · match rest with
      | [] => simp [matchTagHere, hc] at h
      | c2 :: rest2 =>
        by_cases hc2 : c2 = '{'
        · rcases hm : matchNameClose rest2 with _ | ⟨⟨n0, cl0, r0⟩⟩
          · simp [matchTagHere, hc, hc2, hm] at h
          · simp [matchTagHere, hc, hc2, hm] at h
            obtain ⟨h1, h2, h3, h4⟩ := h
            subst h1; subst h2; subst h3; subst h4
            obtain ⟨e1, e2, e3, e4⟩ := matchNameClose_len hm
            simp only [List.length_cons]
            clear hm hc hc2
            refine ⟨?_, ?_, ?_, ?_⟩ <;> omega
        · rcases hm : matchNameClose (c2 :: rest2) with _ | ⟨⟨n0, cl0, r0⟩⟩
          · simp [matchTagHere, hc, hc2, hm] at h
          · simp [matchTagHere, hc, hc2, hm] at h
            obtain ⟨h1, h2, h3, h4⟩ := h
            subst h1; subst h2; subst h3; subst h4
            obtain ⟨e1, e2, e3, e4⟩ := matchNameClose_len hm
            simp only [List.length_cons] at e1
            simp only [List.length_cons]
            clear hm hc hc2
            refine ⟨?_, ?_, ?_, ?_⟩ <;> omega
    · simp [matchTagHere, hc] at h

theorem findTag_len {s b n : List Char} {o cl : Nat} {r : List Char}
    (h : findTag s = some (b, o, n, cl, r)) :
    s.length = b.length + o + n.length + cl + r.length ∧ 1 ≤ o ∧ o ≤ 2 ∧
      2 ≤ n.length ∧ 1 ≤ cl ∧ cl ≤ 2 := by
  induction s generalizing b with
  | nil => simp [findTag] at h
  | cons c cs ih =>
    rcases hm : matchTagHere (c :: cs) with _ | ⟨⟨o0, n0, cl0, r0⟩⟩
    · rcases hf : findTag cs with _ | ⟨⟨b0, o1, n1, cl1, r1⟩⟩
      · simp [findTag, hm, hf] at h
      · simp [findTag, hm, hf] at h
        obtain ⟨h1, h2, h3, h4, h5⟩ := h
        subst h1; subst h2; subst h3; subst h4; subst h5
        obtain ⟨e1, e2, e3, e4, e5, e6⟩ := ih hf
        simp only [List.length_cons]
        clear hm hf ih
        refine ⟨?_, ?_, ?_, ?_, ?_, ?_⟩ <;> omega
    · simp [findTag, hm] at h
      obtain ⟨h1, h2, h3, h4, h5⟩ := h
      subst h1; subst h2; subst h3; subst h4; subst h5
      obtain ⟨e1, e2, e3, e4, e5, e6⟩ := matchTagHere_len hm
      simp only [List.length_cons] at e1
      simp only [List.length_cons, List.length_nil]
      clear hm ih
      refine ⟨?_, ?_, ?_, ?_, ?_, ?_⟩ <;> omega

theorem tokenize_nil (fuel : Nat) : tokenize fuel [] = [] := by
  cases fuel <;> simp [tokenize]

/-- Fuel irrelevance: any fuel of at least the text length gives the same
token list, so `tokenizeAll` is the total behaviour of RenderQueue._read. -/
theorem tokenize_fuel_eq : ∀ (k f1 f2 : Nat) (s : List Char),
    s.length ≤ k → s.length ≤ f1 → s.length ≤ f2 → tokenize f1 s = tokenize f2 s := by
  intro k
  induction k with
  | zero =>
    intro f1 f2 s hk _ _
    have hs : s = [] := List.eq_nil_of_length_eq_zero (Nat.le_zero.mp hk)
    subst hs
    rw [tokenize_nil, tokenize_nil]
  | succ k ih =>
    intro f1 f2 s hk h1 h2
    match s, f1, f2 with
    | [], _, _ => rw [tokenize_nil, tokenize_nil]
    | c :: cs, 0, _ => simp at h1
    | c :: cs, g1 + 1, 0 => simp at h2
    | c :: cs, g1 + 1, g2 + 1 =>
      simp only [tokenize]
      rcases hft : findTag (c :: cs) with _ | ⟨⟨b, o, n, cl, rest⟩⟩
      · rfl
      · obtain ⟨l1, l2, l3, l4, l5, l6⟩ := findTag_len hft
        simp only [List.length_cons] at l1 hk h1 h2
        have hr2 : (if (o == 1 && cl == 2) = true then '}' :: rest else rest).length
            ≤ rest.length + 1 := by
          split <;> simp
        simp only [List.cons.injEq, true_and]
        apply ih <;> omega

theorem matchTagHere_none_of_head {c : Char} (cs : List Char) (hc : c ≠ '{') :
    matchTagHere (c :: cs) = none := by
  simp [matchTagHere, hc]

theorem findTag_none_of_no_brace {s : List Char} (hs : ∀ c ∈ s, c ≠ '{') :
    findTag s = none := by
  induction s with
  | nil => simp [findTag]
  | cons c cs ih =>
    have hc : c ≠ '{' := hs c (by simp)
    have ihs : findTag cs = none := ih (fun x hx => hs x (by simp [hx]))
    simp [findTag, matchTagHere_none_of_head cs hc, ihs]

theorem tokenize_no_brace {s : List Char} (hs : ∀ c ∈ s, c ≠ '{')
    {fuel : Nat} (hf : 1 ≤ fuel) :
    tokenize fuel s = if s = [] then [] else [Elem.text s] := by
  match fuel, hf, s with
  | g + 1, _, [] => simp [tokenize]
  | g + 1, _, c :: cs =>
    simp only [tokenize, findTag_none_of_no_brace hs]
    simp

/-- The leftmost match skips over leading text that contains no opening brace. -/
theorem findTag_append_no_brace {p : List Char} (q : List Char)
    (hp : ∀ c ∈ p, c ≠ '{') :
    findTag (p ++ q) =
      match findTag q with
      | some (b, o, n, cl, r) => some (p ++ b, o, n, cl, r)
      | none => none := by
  induction p with
  | nil =>
    simp only [List.nil_append]
    rcases hq : findTag q with _ | ⟨⟨b, o, n, cl, r⟩⟩ <;> simp
  | cons c p ih =>
    have hc : c ≠ '{' := hp c (by simp)
    have ihs := ih (fun x hx => hp x (by simp [hx]))
    rcases hq : findTag q with _ | ⟨⟨b, o, n, cl, r⟩⟩ <;>
      simp only [hq] at ihs ⊢ <;>
      simp [List.cons_append, findTag, matchTagHere_none_of_head _ hc, ihs]

/-! ## HTML escaping and the mask/escape pipeline

Renderer._transform (lib/Renderer.js lines 219-267) resolves each queue
element and then post-processes scalar data:
  1. null/undefined or empty-string data is skipped with no output;
  2. if the element requests escaping and the data is a string or Buffer,
     it is HTML-escaped (the html-escape collaborator module);
  3. the mask chain is applied left to right, skipping names that are not
     bound to a function in the block mask table.  The source comment on
     lines 248-249 states: masks come after escaping, so masks can return
     markup if they choose.
-/

/-- Double-quote character (codepoint 34). -/
def quoteChar : Char := Char.ofNat 34

/-- Single-quote character (codepoint 39). -/
def aposChar : Char := Char.ofNat 39

/-- Per-character entity replacement of the html-escape collaborator module.
The repository test suite pins this behaviour: the less-than sign becomes
the lt entity while the greater-than sign passes through unchanged. -/
def escapeChar (c : Char) : List Char :=
  if c = '&' then "&amp;".toList
  else if c = '<' then "&lt;".toList
  else if c = quoteChar then "&quot;".toList
  else if c = aposChar then "&#39;".toList
  else [c]

/-- The html-escape collaborator function on a whole string. -/
def htmlescape (s : List Char) : List Char := (s.map escapeChar).flatten

/-- Association-list lookup by name, modelling a JS object property read
that yields undefined (none) for missing keys. -/
def alook {α : Type} (k : String) : List (String × α) → Option α
  | [] => none
  | (k2, v) :: rest => if k2 = k then some v else alook k rest

/-- A block mask table: mask name to synchronous transform function. -/
abbrev MaskTable := List (String × (List Char → List Char))

/-- A block variable table with string values (the fragment of the value
space exercised by the tokenizer and CDATA claims). -/
abbrev VarTable := List (String × List Char)

/-- The mask loop of Renderer._transform lines 250-256: each name in the
element mask chain is looked up in the block mask table and applied if it
is bound to a function, otherwise skipped. -/
def applyMasksFold (bm : MaskTable) (chain : List String) (d : List Char) : List Char :=
  chain.foldl (fun acc m =>
    match alook m bm with
    | some f => f acc
    | none => acc) d

/-- The scalar post-processing of Renderer._transform lines 243-256:
escaping first (when the element requests it and the data is a string),
then the mask chain. -/
def transformData (bm : MaskTable) (esc : Bool) (chain : List String) (d : List Char) : List Char :=
  applyMasksFold bm chain (if esc then htmlescape d else d)

/-- Resolution and emission of one queue element with string-valued
variables (Renderer.processElement lines 164-207 for the string/undefined
cases, then the _transform tail): literal text passes through; a tag looks
its name up in the block variable table; a missing variable resolves to
undefined, which processElement turns into the empty string and _transform
then skips; a present empty string is also skipped; otherwise the data goes
through escaping and masks. -/
def renderElem (vars : VarTable) (bm : MaskTable) : Elem → List Char
  | Elem.text s => s
  | Elem.tag t =>
    match alook t.name vars with
    | none => []
    | some v => if v = [] then [] else transformData bm t.escape t.masks v

/-- Emission of a whole queue, in order. -/
def renderElems (vars : VarTable) (bm : MaskTable) (elems : List Elem) : List Char :=
  (elems.map (renderElem vars bm)).flatten

/-- Rendering a template text whose variables are plain strings: tokenize
with RenderQueue, then drain the queue through Renderer._transform. -/
def renderChars (s : List Char) (vars : VarTable) (bm : MaskTable) : List Char :=
  renderElems vars bm (tokenize s.length s)

/-! ## Block content preprocessing

The Block constructor (lib/Block.js lines 79-104) rewrites the raw template
content before it ever reaches the tokenizer:
  1. every CDATA span is replaced in place: its inner text is stored
     verbatim in the block variable table under the synthetic name
     talisman_cdata_OFFSET (OFFSET is the match position in the original
     content), and the span is replaced by a placeholder made of THREE
     opening and THREE closing braces around that name (line 85:
     the template literal has three literal braces on each side);
  2. comment spans are stripped (with one trailing newline);
  3. child-block spans are spliced out the same way (not modelled here;
     the contents considered by the claims contain no block marker, on
     which this pass is the identity).
-/

/-- Tests whether the pattern starts the text. -/
def startsWithL : List Char → List Char → Bool
  | [], _ => true
  | _ :: _, [] => false
  | p :: ps, c :: cs => p = c && startsWithL ps cs

/-- Index of the first occurrence of the pattern, scanning left to right
(the lazy regex quantifier finds the earliest closing delimiter). -/
def findSub (pat : List Char) : List Char → Option Nat
  | [] => if startsWithL pat [] then some 0 else none
  | c :: rest =>
    if startsWithL pat (c :: rest) then some 0
    else
      match findSub pat rest with
      | some i => some (i + 1)
      | none => none

/-- The CDATA opening delimiter. -/
def cdataOpen : List Char := '{' :: '{' :: "CDATA[".toList

/-- The CDATA closing delimiter. -/
def cdataClose : List Char := ']' :: '}' :: '}' :: []

/-- The replacement text for one CDATA span (Block.js line 85): three
opening braces, the synthetic variable name, three closing braces. -/
def cdataSplice (name : String) : List Char :=
  '{' :: '{' :: '{' :: (name.toList ++ ('}' :: '}' :: '}' :: []))

/-- The CDATA pass of the Block constructor (lines 81-86): repeatedly find
the next CDATA span, store its inner text under talisman_cdata_OFFSET, and
splice the triple-brace placeholder in its place.  The offset counts
positions in the original content, as the replace callback receives it. -/
def cdataPass : Nat → Nat → List Char → List Char × VarTable
  | 0, _, s => (s, [])
  | fuel + 1, offset, s =>
    match findSub cdataOpen s with
    | none => (s, [])
    | some i =>
      let afterOpen := s.drop (i + 8)
      match findSub cdataClose afterOpen with
      | none => (s, [])
      | some j =>
        let inner := afterOpen.take j
        let name := "talisman_cdata_" ++ toString (offset + i)
        let rest := afterOpen.drop (j + 3)
        let next := cdataPass fuel (offset + i + 8 + j + 3) rest
        (s.take i ++ cdataSplice name ++ next.1, (name, inner) :: next.2)

/-- The comment opening delimiter. -/
def commentOpen : List Char := '{' :: '/' :: '*' :: []

/-- The comment closing delimiter. -/
def commentClose : List Char := '*' :: '/' :: '}' :: []

/-- The comment strip pass of the Block constructor (line 91): every
comment span is removed together with at most one following newline. -/
def commentPass : Nat → List Char → List Char
  | 0, s => s
  | fuel + 1, s =>
    match findSub commentOpen s with
    | none => s
    | some i =>
      let afterOpen := s.drop (i + 3)
      match findSub commentClose afterOpen with
      | none => s
      | some j =>
        let after := afterOpen.drop (j + 3)
        let after2 := match after with
          | c :: r => if c = '\n' then r else c :: r
          | [] => []
        s.take i ++ commentPass fuel after2

/-- Rendering a whole template string through Block preprocessing, the
tokenizer and the renderer, for contents without child-block markers (the
block splice pass is the identity on such contents).  The synthetic CDATA
variables are joined with the host-supplied variables in the block
variable table. -/
def renderTemplate (s : List Char) (userVars : VarTable) (bm : MaskTable) : List Char :=
  let cd := cdataPass s.length 0 s
  let content := commentPass cd.1.length cd.1
  renderChars content (cd.2 ++ userVars) bm

/-! ## Claim C3: CDATA round-trip (code bug)

Block.js line 85 splices the CDATA placeholder back with THREE braces on
each side, but the RenderQueue tag regex only ever consumes two.  On the
spliced text the leftmost match starts at the second brace, so the first
brace and the last brace leak into the literal text around the raw
placeholder.  The repository documents CDATA as rendered as-is (readme)
and its test suite expects render of "Hello {{CDATA[{name}]}}!" with
name = World to be "Hello {name}!", but the engine produces
"Hello {{name}}!".
-/

/-- Claim C3 (code bug): the CDATA span is claimed to be emitted
byte-for-byte, so rendering the template consisting of a CDATA span with
inner text open-brace x close-brace should produce exactly that inner
text.  The code instead wraps the inner text in one extra brace on each
side: the spec round-trip fails on the triple-brace splice that
Block.js line 85 introduces.  Both conjuncts evaluate the full pipeline at
the failing inputs (the second is the input of the repository test named
"preserving template tags with a CDATA tag"). -/
theorem cdataTripleBraceEval :
    (renderTemplate ("\x7b\x7bCDATA[\x7bx\x7d]\x7d\x7d".toList)
        [("x", "Y".toList)] [] = "\x7b\x7bx\x7d\x7d".toList
      ∧ renderTemplate ("\x7b\x7bCDATA[\x7bx\x7d]\x7d\x7d".toList)
        [("x", "Y".toList)] [] ≠ "\x7bx\x7d".toList)
    ∧ (renderTemplate ("Hello \x7b\x7bCDATA[\x7bname\x7d]\x7d\x7d!".toList)
        [("name", "World".toList)] [] = "Hello \x7b\x7bname\x7d\x7d!".toList
      ∧ renderTemplate ("Hello \x7b\x7bCDATA[\x7bname\x7d]\x7d\x7d!".toList)
        [("name", "World".toList)] [] ≠ "Hello \x7bname\x7d!".toList) :=
  ⟨⟨rfl, by decide⟩, ⟨rfl, by decide⟩⟩

/-! ## Claim C4: order of masks and escaping (corrected)

The claim says masks are applied first and escaping afterwards.  The code
does the opposite, and says so in its own comment (Renderer.js lines
248-249): escaping happens first, masks are applied to the escaped text.
-/

/-- The processing order claim C4 describes, written from the spec words:
apply the mask chain to the resolved value first, then escape the masked
result.  Kept only for comparison with `transformData`. -/
def maskThenEscapeSpec (bm : MaskTable) (esc : Bool) (chain : List String)
    (d : List Char) : List Char :=
  let masked := applyMasksFold bm chain d
  if esc then htmlescape masked else masked

/-- Recursive form of left-to-right mask application, used to state the
amended claim independently of the foldl in the source embedding. -/
def applyMaskChain (bm : MaskTable) : List String → List Char → List Char
  | [], d => d
  | m :: rest, d =>
    applyMaskChain bm rest
      (match alook m bm with
       | some f => f d
       | none => d)

theorem applyMasksFold_eq_chain (bm : MaskTable) :
    ∀ (chain : List String) (d : List Char),
      applyMasksFold bm chain d = applyMaskChain bm chain d := by
  intro chain
  induction chain with
  | nil => intro d; rfl
  | cons m rest ih =>
    intro d
    simp only [applyMasksFold, List.foldl_cons] at *
    simp only [applyMaskChain]
    exact ih _

/-- A one-entry mask table whose mask appends a less-than sign, together
with a value consisting of a single less-than sign: an input on which the
two processing orders visibly disagree. -/
def angleMask : MaskTable := [("m", fun s => s ++ ['<'])]

/-- Claim C4 counterexample: on the angle mask and the value consisting of
one less-than sign, the engine produces the escaped value with a raw
less-than sign appended by the mask, which differs from the
mask-first-then-escape result the claim describes. -/
theorem maskOrderCounterexample :
    transformData angleMask true ["m"] ['<'] = "&lt;<".toList
    ∧ maskThenEscapeSpec angleMask true ["m"] ['<'] = "&lt;&lt;".toList
    ∧ transformData angleMask true ["m"] ['<']
        ≠ maskThenEscapeSpec angleMask true ["m"] ['<'] :=
  ⟨rfl, rfl, by decide⟩

/-- Claim C4 (amended): for a single-brace placeholder with a string
resolved value, HTML escaping is applied to the resolved value FIRST, and
the mask chain is then applied left to right to the escaped result,
skipping unregistered names (so masks can return markup).  The second
conjunct exhibits left-to-right application as explicit function
composition on a two-mask chain. -/
theorem transformEscapesBeforeMasks (bm : MaskTable) (chain : List String)
    (v : List Char) (f g : List Char → List Char) :
    transformData bm true chain v = applyMaskChain bm chain (htmlescape v)
    ∧ transformData [("m1", f), ("m2", g)] true ["m1", "m2"] v
        = g (f (htmlescape v)) := by
  constructor
  · simp only [transformData, if_pos rfl]
    exact applyMasksFold_eq_chain bm chain (htmlescape v)
  · rfl

/-! ## Claim C5: malformed brace correction (confirmed)

The two malformed spans from the spec, with the tag name "name":
span1 is open-brace name close-brace close-brace; span2 is open-brace
open-brace name close-brace.
-/

/-- The span with one opening and two closing braces. -/
def span1 : List Char := '{' :: 'n' :: 'a' :: 'm' :: 'e' :: '}' :: '}' :: []

/-- The span with two opening braces and one closing brace. -/
def span2 : List Char := '{' :: '{' :: 'n' :: 'a' :: 'm' :: 'e' :: '}' :: []

theorem matchTagHere_span1 (s : List Char) :
    matchTagHere (span1 ++ s)
      = some (1, 'n' :: 'a' :: 'm' :: 'e' :: [], 2, s) := rfl

theorem matchTagHere_span2 (s : List Char) (hs : '}' ∉ s) :
    matchTagHere (span2 ++ s)
      = some (2, 'n' :: 'a' :: 'm' :: 'e' :: [], 1, s) := by
  cases s with
  | nil => rfl
  | cons c cs =>
    have hc : ¬(c = '}') := fun e => hs (by simp [e])
    simp [span2, matchTagHere, matchNameClose, matchNameTail, matchClose,
      isTagAlpha, isTagAlnum, isTagInterior, hc]

theorem findTag_head_some {c : Char} {cs n : List Char} {o cl : Nat} {r : List Char}
    (h : matchTagHere (c :: cs) = some (o, n, cl, r)) :
    findTag (c :: cs) = some ([], o, n, cl, r) := by
  simp [findTag, h]

/-- Membership form of the no-brace hypotheses. -/
theorem no_open_brace {p : List Char} (hp : '{' ∉ p) : ∀ c ∈ p, c ≠ '{' :=
  fun _ hc e => hp (e ▸ hc)

theorem tokenize_succ (fuel : Nat) (s : List Char) (hs : s ≠ []) :
    tokenize (fuel + 1) s =
      match findTag s with
      | none => [Elem.text s]
      | some (before, o, name, cl, rest) =>
        Elem.text (if (o == 2 && cl == 1) = true then before ++ ['{'] else before)
          :: Elem.tag (mkTag (!(o == 2 && cl == 2)) name)
          :: tokenize fuel (if (o == 1 && cl == 2) = true then '}' :: rest else rest) := by
  cases s with
  | nil => exact absurd rfl hs
  | cons c cs => rfl

theorem tokenize_span1 (p s : List Char) (hp : '{' ∉ p) (hs : '{' ∉ s)
    {fuel : Nat} (hf : (p ++ span1 ++ s).length ≤ fuel) :
    tokenize fuel (p ++ span1 ++ s)
      = [Elem.text p,
         Elem.tag { name := "name", escape := true, masks := [], deeplinks := [] },
         Elem.text ('}' :: s)] := by
  have hlen : (p ++ span1 ++ s).length = p.length + 7 + s.length := by
    simp [span1]; omega
  obtain ⟨g, rfl⟩ : ∃ g, fuel = g + 1 := by
    cases fuel with
    | zero => rw [hlen] at hf; omega
    | succ g => exact ⟨g, rfl⟩
  have hne : p ++ span1 ++ s ≠ [] := by
    intro e
    have he := congrArg List.length e
    rw [hlen] at he
    simp at he
  rw [tokenize_succ g _ hne]
  have hfind : findTag (p ++ (span1 ++ s))
      = some (p, 1, 'n' :: 'a' :: 'm' :: 'e' :: [], 2, s) := by
    rw [findTag_append_no_brace (span1 ++ s) (no_open_brace hp)]
    have h1 : findTag (span1 ++ s)
        = some ([], 1, 'n' :: 'a' :: 'm' :: 'e' :: [], 2, s) := by
      have h0 := matchTagHere_span1 s
      simp only [span1, List.cons_append, List.nil_append] at h0 ⊢
      exact findTag_head_some h0
    rw [h1]
    simp
  rw [List.append_assoc]
  rw [hfind]
  have hrest : tokenize g ('}' :: s) = [Elem.text ('}' :: s)] := by
    have hg : 1 ≤ g := by rw [hlen] at hf; omega
    have hnb : ∀ c ∈ ('}' :: s), c ≠ '{' := by
      intro c hc
      rcases List.mem_cons.mp hc with h1 | h2
      · subst h1; decide
      · exact no_open_brace hs c h2
    rw [tokenize_no_brace hnb hg]
    simp
  simp [hrest, mkTag, jsSplit]

theorem tokenize_span2 (p s : List Char) (hp : '{' ∉ p) (hs1 : '{' ∉ s) (hs2 : '}' ∉ s)
    {fuel : Nat} (hf : (p ++ span2 ++ s).length ≤ fuel) :
    tokenize fuel (p ++ span2 ++ s)
      = Elem.text (p ++ ['{'])
          :: Elem.tag { name := "name", escape := true, masks := [], deeplinks := [] }
          :: (if s = [] then [] else [Elem.text s]) := by
  have hlen : (p ++ span2 ++ s).length = p.length + 7 + s.length := by
    simp [span2]; omega
  obtain ⟨g, rfl⟩ : ∃ g, fuel = g + 1 := by
    cases fuel with
    | zero => rw [hlen] at hf; omega
    | succ g => exact ⟨g, rfl⟩
  have hne : p ++ span2 ++ s ≠ [] := by
    intro e
    have he := congrArg List.length e
    rw [hlen] at he
    simp at he
  rw [tokenize_succ g _ hne]
  have hfind : findTag (p ++ (span2 ++ s))
      = some (p, 2, 'n' :: 'a' :: 'm' :: 'e' :: [], 1, s) := by
    rw [findTag_append_no_brace (span2 ++ s) (no_open_brace hp)]
    have h1 : findTag (span2 ++ s)
        = some ([], 2, 'n' :: 'a' :: 'm' :: 'e' :: [], 1, s) := by
      have h0 := matchTagHere_span2 s hs2
      simp only [span2, List.cons_append, List.nil_append] at h0 ⊢
      exact findTag_head_some h0
    rw [h1]
    simp
  rw [List.append_assoc]
  rw [hfind]
  have hrest : tokenize g s = if s = [] then [] else [Elem.text s] := by
    have hg : 1 ≤ g := by rw [hlen] at hf; omega
    rw [tokenize_no_brace (no_open_brace hs1) hg]
  simp [hrest, mkTag, jsSplit]

theorem emit_plain_escaped (bm : MaskTable) (v : List Char) :
    (if v = [] then [] else transformData bm true [] v) = htmlescape v := by
  by_cases hv : v = []
  · subst hv; rfl
  · simp [hv, transformData, applyMasksFold]

/-- Claim C5 (confirmed): in any template placing the malformed span
open-brace name close-brace close-brace between brace-free text runs, the
extra trailing brace becomes literal text of the following run and the
placeholder is escaped, so with name bound to VALUE the output is the
escaped VALUE followed by one literal closing brace; and for the span
open-brace open-brace name close-brace, the extra leading brace becomes
literal text of the preceding run and the placeholder is escaped, so the
output is one literal opening brace followed by the escaped VALUE. -/
theorem malformedBraceCorrection (p s VALUE : List Char) (bm : MaskTable)
    (hp : '{' ∉ p) (hs1 : '{' ∉ s) (hs2 : '}' ∉ s) :
    renderChars (p ++ span1 ++ s) [("name", VALUE)] bm
        = p ++ (htmlescape VALUE ++ ('}' :: s))
    ∧ renderChars (p ++ span2 ++ s) [("name", VALUE)] bm
        = p ++ ('{' :: (htmlescape VALUE ++ s)) := by
  constructor
  · unfold renderChars
    rw [tokenize_span1 p s hp hs1 (le_refl _)]
    simp [renderElems, renderElem, alook, emit_plain_escaped]
  · unfold renderChars
    rw [tokenize_span2 p s hp hs1 hs2 (le_refl _)]
    by_cases hs : s = []
    · subst hs
      simp [renderElems, renderElem, alook, emit_plain_escaped]
    · simp [hs, renderElems, renderElem, alook, emit_plain_escaped]

/-- Closed instance of claim C5 at the template "Hello {name}}!" and
"Hello {{name}!" with name bound to World. -/
theorem malformedBraceCorrectionWitness :
    ('{' ∉ "Hello ".toList) ∧ ('{' ∉ "!".toList) ∧ ('}' ∉ "!".toList)
    ∧ (renderChars ("Hello ".toList ++ span1 ++ "!".toList)
          [("name", "World".toList)] []
          = "Hello ".toList ++ (htmlescape "World".toList ++ ('}' :: "!".toList))
      ∧ renderChars ("Hello ".toList ++ span2 ++ "!".toList)
          [("name", "World".toList)] []
          = "Hello ".toList ++ ('{' :: (htmlescape "World".toList ++ "!".toList))) :=
  ⟨by decide, by decide, by decide,
    malformedBraceCorrection _ _ _ _ (by decide) (by decide) (by decide)⟩

/-! ## The drain loop of Renderer._transform: visibility and errors

Renderer._transform (lines 219-267) is invoked by Node once per queue
element, strictly in queue order, and the next invocation happens only
after the callback (next) of the previous one:
  - if the block is hidden, it pushes null: the output ends with zero
    bytes and no element is ever resolved (lines 221-224);
  - an element resolving to null/undefined or the empty string calls
    next() with no output (lines 231-234);
  - a resolved chunk is pushed and next() is called;
  - a failed resolution calls next(e) (line 266): the stream emits an
    error event, the pipe from the RenderQueue source is undone, and no
    further queue element is processed.  toString (talisman.js lines
    300-321) rejects its promise on that error event.
-/

/-- The settled outcome of processElement for one queue element. -/
inductive Settled where
  | out (s : List Char)
  | empty
  | fail (e : String)
deriving Repr, DecidableEq

/-- The visibility state the renderer reads on every _transform call. -/
structure RBlock where
  isVisible : Bool
deriving Repr, DecidableEq

/-- Block.setVisibility (Block.js lines 206-208): stores the boolean; the
facade remove operation calls it with false. -/
def RBlock.setVisibility (_ : RBlock) (v : Bool) : RBlock :=
  { isVisible := v }

/-- The drain loop: output chunks in order and the terminal error, if any. -/
def drainQueue (blk : RBlock) : List Settled → List (List Char) × Option String
  | [] => ([], none)
  | el :: rest =>
    if blk.isVisible = false then ([], none)
    else
      match el with
      | Settled.empty => drainQueue blk rest
      | Settled.out s =>
        let next := drainQueue blk rest
        (s :: next.1, next.2)
      | Settled.fail e => ([], some e)

/-- toString (talisman.js lines 300-321): concatenates data chunks and
resolves on end, or rejects with the first error event. -/
def renderToString (blk : RBlock) (q : List Settled) : Except String (List Char) :=
  match drainQueue blk q with
  | (_, some e) => Except.error e
  | (outs, none) => Except.ok outs.flatten

/-- The chunks a queue fragment would emit. -/
def settledOutputs : List Settled → List (List Char) :=
  List.filterMap (fun el =>
    match el with
    | Settled.out s => some s
    | _ => none)

/-- Decidable check that a queue fragment holds no failing element. -/
def errorFree (q : List Settled) : Bool :=
  q.all (fun el =>
    match el with
    | Settled.fail _ => false
    | _ => true)

/-- Claim C1 counterexample: on the queue A, failure, B the engine emits A,
surfaces the error, and never processes B; the claim that the remaining
queue elements are still processed is false at this input. -/
theorem resolutionErrorCounterexample :
    drainQueue { isVisible := true }
        [Settled.out ['A'], Settled.fail "boom", Settled.out ['B']]
      = ([['A']], some "boom")
    ∧ ['B'] ∉ (drainQueue { isVisible := true }
        [Settled.out ['A'], Settled.fail "boom", Settled.out ['B']]).1
    ∧ renderToString { isVisible := true }
        [Settled.out ['A'], Settled.fail "boom", Settled.out ['B']]
      = Except.error "boom" :=
  ⟨rfl, by decide, rfl⟩

/-- Claim C1 (amended): when resolving one queue element fails, the output
already emitted for the earlier elements stands, the failing element
contributes no output, and the error is surfaced as an error event on the
output stream (a promise rejection for toString consumers); however the
remaining queue elements are NOT processed: the element-level error
terminates the render at that element. -/
theorem resolutionErrorScoped (blk : RBlock) (pre post : List Settled) (e : String)
    (hvis : blk.isVisible = true) (hpre : errorFree pre = true) :
    drainQueue blk (pre ++ Settled.fail e :: post) = (settledOutputs pre, some e)
    ∧ renderToString blk (pre ++ Settled.fail e :: post) = Except.error e := by
  have hmain : drainQueue blk (pre ++ Settled.fail e :: post)
      = (settledOutputs pre, some e) := by
    induction pre with
    | nil => simp [drainQueue, hvis, settledOutputs]
    | cons el rest ih =>
      simp only [errorFree, List.all_cons, Bool.and_eq_true] at hpre
      have ihr : drainQueue blk (rest ++ Settled.fail e :: post)
          = (settledOutputs rest, some e) := by
        apply ih
        simp [errorFree, hpre.2]
      cases el with
      | out s => simp [drainQueue, hvis, settledOutputs, ihr]
      | empty => simp [drainQueue, hvis, settledOutputs, ihr]
      | fail e0 => simp at hpre
  refine ⟨hmain, ?_⟩
  simp [renderToString, hmain]

/-- Closed instance of claim C1 as amended: a visible block, an error-free
front fragment emitting A, a failing element, and more elements after it. -/
theorem resolutionErrorScopedWitness :
    ({ isVisible := true } : RBlock).isVisible = true
    ∧ errorFree [Settled.out ['A'], Settled.empty] = true
    ∧ (drainQueue { isVisible := true }
          ([Settled.out ['A'], Settled.empty] ++ Settled.fail "boom" :: [Settled.out ['B']])
        = (settledOutputs [Settled.out ['A'], Settled.empty], some "boom")
      ∧ renderToString { isVisible := true }
          ([Settled.out ['A'], Settled.empty] ++ Settled.fail "boom" :: [Settled.out ['B']])
        = Except.error "boom") :=
  ⟨rfl, by decide,
    resolutionErrorScoped { isVisible := true } [Settled.out ['A'], Settled.empty]
      [Settled.out ['B']] "boom" rfl (by decide)⟩

/-- Claim C8 (confirmed): once a block is hidden (Block.setVisibility false,
which is what the facade remove performs on the found block), the drain
emits zero bytes and surfaces no error, whatever the queue would have
resolved to: the visibility gate at the top of _transform returns before
any element is resolved, so even elements whose resolution would fail
contribute neither output nor an error, and toString resolves to the empty
string. -/
theorem invisibleBlockEmitsNothing (b : RBlock) (q : List Settled) :
    drainQueue (b.setVisibility false) q = ([], none)
    ∧ renderToString (b.setVisibility false) q = Except.ok [] := by
  have h : drainQueue (b.setVisibility false) q = ([], none) := by
    cases q with
    | nil => rfl
    | cons el rest => simp [drainQueue, RBlock.setVisibility]
  refine ⟨h, ?_⟩
  simp [renderToString, h]

/-! ## Claim C2: commit order under asynchronous settlement

Values bound to placeholders are promises started when the host calls set,
before the render begins, so each one settles at an absolute time that
does not depend on the drain.  Node invokes _transform for queue element
i+1 only after element i has called next(), and a chunk is pushed before
next() runs; _transform awaits the element value, so element i is pushed
at the maximum of the previous push time and its own settle time.  Pushes
therefore happen in queue order with nondecreasing times, whatever the
settle order.
-/

/-- The push schedule: each entry is the resolved value paired with its
settle time; the result pairs each value with its push (commit) time. -/
def commitSchedule : Nat → List (List Char × Nat) → List (List Char × Nat)
  | _, [] => []
  | clock, (v, t) :: rest =>
    let c := max clock t
    (v, c) :: commitSchedule c rest

/-- A full render starts with clock zero. -/
def renderTimed (elems : List (List Char × Nat)) : List (List Char × Nat) :=
  commitSchedule 0 elems

theorem commitSchedule_fst (clock : Nat) (q : List (List Char × Nat)) :
    (commitSchedule clock q).map Prod.fst = q.map Prod.fst := by
  induction q generalizing clock with
  | nil => rfl
  | cons p rest ih => simp [commitSchedule, ih]

theorem commitSchedule_chain (clock : Nat) (q : List (List Char × Nat)) :
    List.Chain (· ≤ ·) clock ((commitSchedule clock q).map Prod.snd) := by
  induction q generalizing clock with
  | nil => simp [commitSchedule]
  | cons p rest ih =>
    simp only [commitSchedule, List.map_cons]
    exact List.Chain.cons (Nat.le_max_left _ _) (ih _)

theorem chain_le_chain' {a : Nat} {l : List Nat}
    (h : List.Chain (· ≤ ·) a l) : List.Chain' (· ≤ ·) l := by
  cases l with
  | nil => simp
  | cons b rest =>
    cases h with
    | cons hab hrest => exact hrest

/-- Claim C2 (confirmed): the rendered values appear in queue order
regardless of the settle times, the push times are nondecreasing, and in
the two-placeholder scenario where the second promise settles first
(t2 before t1) the first value is still pushed first: both are pushed at
time t1, in source order. -/
theorem rendererCommitsInQueueOrder (q : List (List Char × Nat))
    (v1 v2 : List Char) (t1 t2 : Nat) (h : t2 < t1) :
    (renderTimed q).map Prod.fst = q.map Prod.fst
    ∧ List.Chain' (· ≤ ·) ((renderTimed q).map Prod.snd)
    ∧ renderTimed [(v1, t1), (v2, t2)] = [(v1, t1), (v2, t1)] := by
  refine ⟨commitSchedule_fst 0 q, chain_le_chain' (commitSchedule_chain 0 q), ?_⟩
  simp [renderTimed, commitSchedule, Nat.max_eq_left (le_of_lt h)]

/-- Closed instance of claim C2: the second promise settles at time zero,
before the first at time five; output is still first value then second. -/
theorem rendererCommitsInQueueOrderWitness :
    (0 : Nat) < 5
    ∧ ((renderTimed [(['a'], 3)]).map Prod.fst = [(['a'], 3)].map Prod.fst
      ∧ List.Chain' (· ≤ ·) ((renderTimed [(['a'], 3)]).map Prod.snd)
      ∧ renderTimed [(['x'], 5), (['y'], 0)] = [(['x'], 5), (['y'], 5)]) :=
  ⟨by decide, rendererCommitsInQueueOrder [(['a'], 3)] ['x'] ['y'] 5 0 (by decide)⟩

/-! ## JS values and deep links (Renderer.getDeeplinkValue)

Variable values resolved by processElement, restricted to settled data.
A block value carries its variable table (the getDeeplinkValue branch for
inputObject.is equal to "block" reads inputObject.vars instead).
-/

/-- A settled JS value. -/
inductive JVal where
  | undef
  | null
  | str (s : List Char)
  | num (n : Int)
  | obj (fields : List (String × JVal))
  | blockv (vars : List (String × JVal))
deriving Repr

/-- A variable table of JS values. -/
abbrev VarMapJ := List (String × JVal)

/-- JS property read data[key] for values that are not undefined or null
(those throw before the read; see getDeeplinkValue).  Objects read their
own properties; strings expose the built-in length property (the
repository test reads headerBlock.name.length); other primitives have no
own properties here. -/
def jsProp (v : JVal) (key : String) : JVal :=
  match v with
  | JVal.obj fields => (alook key fields).getD JVal.undef
  | JVal.str s => if key = "length" then JVal.num s.length else JVal.undef
  | _ => JVal.undef

/-- The TypeError message raised by a property read on undefined. -/
def typeErrUndef : String := "TypeError: cannot read properties of undefined"

/-- The TypeError message raised by a property read on null. -/
def typeErrNull : String := "TypeError: cannot read properties of null"

/-- Renderer.getDeeplinkValue (lines 145-156), translated faithfully: the
first path segment is shifted off; reading inputObject.is throws a
TypeError when inputObject is undefined or null; a block value redirects
the read to its variable table; the segment is read as a property; when
segments remain the function recurses on the value just read, otherwise
that value (possibly undefined) is returned.  The empty-path case never
arises: the tokenizer only attaches non-empty deep-link lists. -/
def getDeeplinkValue : JVal → List String → Except String JVal
  | _, [] => Except.ok JVal.undef
  | inputObject, thisLink :: rest =>
    match inputObject with
    | JVal.undef => Except.error typeErrUndef
    | JVal.null => Except.error typeErrNull
    | v =>
      let data :=
        match v with
        | JVal.blockv vars => JVal.obj vars
        | other => other
      let linkValue := jsProp data thisLink
      if rest.length > 0 then getDeeplinkValue linkValue rest
      else Except.ok linkValue

/-- The tag branch of Renderer.processElement (lines 188-196): the bare
name is read from the block variable table (undefined when absent); when
the tag carries a deep-link list the deep walk replaces the value. -/
def resolveTagData (blockVars : VarMapJ) (t : Tag) : Except String JVal :=
  let data := (alook t.name blockVars).getD JVal.undef
  if t.deeplinks ≠ [] then getDeeplinkValue data t.deeplinks
  else Except.ok data

/-- The scalar tail of processElement (lines 168-175 and the _transform
toString fallback): strings pass through, undefined and null become the
empty string, numbers are stringified, plain objects stringify the JS way.
Block and stream values render through nested streams instead and are not
read through this function. -/
def processScalar : JVal → List Char
  | JVal.undef => []
  | JVal.null => []
  | JVal.str s => s
  | JVal.num n => (toString n).toList
  | JVal.obj _ => "[object Object]".toList
  | JVal.blockv _ => []

/-- Claim C7 counterexample: with an empty variable table, the placeholder
with bare name a and deep path b has an undefined bare value; the engine
raises a TypeError from getDeeplinkValue instead of short-circuiting to
absent, so the placeholder surfaces a render error rather than
contributing empty output. -/
theorem deeplinkAbsentCounterexample :
    resolveTagData [] { name := "a", escape := true, masks := [], deeplinks := ["b"] }
      = Except.error typeErrUndef
    ∧ (resolveTagData []
        { name := "a", escape := true, masks := [], deeplinks := ["b"] }).isOk = false :=
  ⟨rfl, rfl⟩

/-- Claim C7 (amended): with a non-empty deep path, absence only at the
FINAL path segment short-circuits to undefined, which renders as empty
output; but an absent (undefined) bare-name value, an undefined
intermediate value, or a null value at either place raises a TypeError
that surfaces as a render error instead of absent output. -/
theorem deeplinkAbsenceBehaviour (bv fields : VarMapJ) (key k2 : String)
    (rest : List String) (t : Tag)
    (hfin : alook key fields = none)
    (hbare : alook t.name bv = none)
    (ht : t.deeplinks = key :: rest) :
    (getDeeplinkValue (JVal.obj fields) [key] = Except.ok JVal.undef
      ∧ processScalar JVal.undef = [])
    ∧ getDeeplinkValue JVal.undef (key :: rest) = Except.error typeErrUndef
    ∧ getDeeplinkValue JVal.null (key :: rest) = Except.error typeErrNull
    ∧ getDeeplinkValue (JVal.obj fields) (key :: k2 :: rest) = Except.error typeErrUndef
    ∧ resolveTagData bv t = Except.error typeErrUndef := by
  refine ⟨⟨?_, rfl⟩, rfl, rfl, ?_, ?_⟩
  · simp [getDeeplinkValue, jsProp, hfin]
  · simp [getDeeplinkValue, jsProp, hfin]
  · simp only [resolveTagData, hbare, ht, Option.getD_none]
    simp [getDeeplinkValue]

/-- Closed instance of claim C7 as amended: an empty block table, a
one-field object, the path segment b, and the tag with bare name a and
deep path b. -/
theorem deeplinkAbsenceBehaviourWitness :
    alook "b" [("x", JVal.num 1)] = none
    ∧ alook "a" ([] : VarMapJ) = none
    ∧ (({ name := "a", escape := true, masks := [], deeplinks := ["b"] } : Tag).deeplinks
        = "b" :: [])
    ∧ ((getDeeplinkValue (JVal.obj [("x", JVal.num 1)]) ["b"] = Except.ok JVal.undef
        ∧ processScalar JVal.undef = [])
      ∧ getDeeplinkValue JVal.undef ("b" :: []) = Except.error typeErrUndef
      ∧ getDeeplinkValue JVal.null ("b" :: []) = Except.error typeErrNull
      ∧ getDeeplinkValue (JVal.obj [("x", JVal.num 1)]) ("b" :: "c" :: [])
          = Except.error typeErrUndef
      ∧ resolveTagData []
          { name := "a", escape := true, masks := [], deeplinks := ["b"] }
          = Except.error typeErrUndef) :=
  ⟨rfl, rfl, rfl,
    deeplinkAbsenceBehaviour [] [("x", JVal.num 1)] "b" "c" []
      { name := "a", escape := true, masks := [], deeplinks := ["b"] } rfl rfl rfl⟩

/-! ## Array iteration (Renderer constructor, lines 49-107)

The array branch of the Renderer constructor drives a little readable
stream whose _read shifts the next row off the host array and wraps it in
a fresh Renderer over a cloned block; the outer _transform pipes each row
stream to completion before calling next(), so row outputs never
interleave and appear in index order.
-/

/-- JS property assignment obj[key] = v: overwrite the property in place
when present (JS object keys are unique, so replacing the first and only
occurrence models the assignment), append it otherwise. -/
def jsSet {α : Type} : List (String × α) → String → α → List (String × α)
  | [], key, v => [(key, v)]
  | (k2, w) :: rest, key, v =>
    if k2 = key then (key, v) :: rest else (k2, w) :: jsSet rest key v

/-- A per-row clone of the iterated block: the own variable table is the
mutated row object, with the parent block table as its prototype
(clone.vars = Object.create(block.vars); clone.setVariables(vars)). -/
structure RowBlock where
  own : VarMapJ
  parent : VarMapJ
deriving Repr

/-- Prototype-chain lookup on the clone: own properties shadow the parent
table. -/
def RowBlock.lookupVar (b : RowBlock) (k : String) : Option JVal :=
  match alook k b.own with
  | some v => some v
  | none => alook k b.parent

/-- createRowBlock (Renderer.js lines 50-69): the row object itself is
mutated with vars.talismanRowNum = counter, and the clone integrates those
row pairs over the inherited block table.  No even/odd flag is written:
the current source injects only talismanRowNum (an older engine variant
also wrote talismanRowIsEven). -/
def createRowBlock (blockVars : VarMapJ) (counter : Nat) (rowVars : VarMapJ) :
    RowBlock :=
  { own := jsSet rowVars "talismanRowNum" (JVal.num counter),
    parent := blockVars }

/-- The iteration loop: rows are shifted off the array in index order with
the counter starting at zero, and each row render is emitted completely
before the next row render begins (the outer stream waits for the row
stream end before calling next). -/
def renderRowsLoop (blockVars : VarMapJ) (renderRow : RowBlock → List Char) :
    List VarMapJ → Nat → List Char
  | [], _ => []
  | row :: rest, counter =>
    renderRow (createRowBlock blockVars counter row)
      ++ renderRowsLoop blockVars renderRow rest (counter + 1)

/-- A full iterated render starts with counter zero. -/
def renderIterated (blockVars : VarMapJ) (rows : List VarMapJ)
    (renderRow : RowBlock → List Char) : List Char :=
  renderRowsLoop blockVars renderRow rows 0

theorem alook_append {α : Type} (k : String) (a b : List (String × α)) :
    alook k (a ++ b) =
      match alook k a with
      | some v => some v
      | none => alook k b := by
  induction a with
  | nil => simp [alook]
  | cons p rest ih =>
    by_cases hk : p.1 = k
    · simp [alook, hk]
    · simp [alook, hk, ih]

theorem alook_jsSet_self {α : Type} (fields : List (String × α)) (key : String) (v : α) :
    alook key (jsSet fields key v) = some v := by
  induction fields with
  | nil => simp [jsSet, alook]
  | cons p rest ih =>
    obtain ⟨k2, w⟩ := p
    by_cases hk : k2 = key
    · simp [jsSet, hk, alook]
    · simp [jsSet, hk, alook, ih]

theorem alook_jsSet_other {α : Type} (fields : List (String × α)) (key k : String)
    (v : α) (hk : k ≠ key) :
    alook k (jsSet fields key v) = alook k fields := by
  induction fields with
  | nil => simp [jsSet, alook, Ne.symm hk]
  | cons p rest ih =>
    obtain ⟨k2, w⟩ := p
    by_cases h2 : k2 = key
    · subst h2
      simp [jsSet, alook, Ne.symm hk]
    · simp [jsSet, h2, alook, ih]

theorem renderRowsLoop_enumFrom (bv : VarMapJ) (renderRow : RowBlock → List Char) :
    ∀ (rows : List VarMapJ) (n : Nat),
      renderRowsLoop bv renderRow rows n
        = ((List.enumFrom n rows).map
            (fun p => renderRow (createRowBlock bv p.1 p.2))).flatten := by
  intro rows
  induction rows with
  | nil => intro n; rfl
  | cons row rest ih =>
    intro n
    simp only [renderRowsLoop, List.enumFrom, List.map_cons, List.flatten_cons, ih]

/-- An example row used by the iteration claims. -/
def exampleRow : VarMapJ := [("a", JVal.num 1)]

/-- Claim C6 counterexample: the first row clone of an iterated block holds
exactly the row pair and the injected zero-based row number, and no
even/odd flag: the lookup of talismanRowIsEven (the name the flag carries
in the older engine variant) yields none both on the clone table and
through the prototype chain, refuting the even/odd part of the claim. -/
theorem rowBlockNoEvenOddFlag :
    (createRowBlock [] 0 exampleRow).own
        = [("a", JVal.num 1), ("talismanRowNum", JVal.num 0)]
    ∧ (createRowBlock [] 0 exampleRow).lookupVar "talismanRowIsEven" = none :=
  ⟨rfl, rfl⟩

/-- Claim C6 (amended): an array data source instantiates the block once
per row in index order and each row render is emitted completely before
the next row render begins (the render is the in-order concatenation of
the per-row renders over the rows enumerated from index zero); each row
instantiation's variable table is seeded from the block's inherited table
plus that row's key-value pairs plus the injected zero-based row index
talismanRowNum — but no even/odd flag. -/
theorem iteratedRowsInOrder (bv : VarMapJ) (rows : List VarMapJ)
    (renderRow : RowBlock → List Char) (row : VarMapJ) (i : Nat) (k : String)
    (v : JVal) (hk : k ≠ "talismanRowNum") (hrow : alook k row = some v) :
    renderIterated bv rows renderRow
        = (rows.enum.map (fun p => renderRow (createRowBlock bv p.1 p.2))).flatten
    ∧ (createRowBlock bv i row).lookupVar "talismanRowNum" = some (JVal.num i)
    ∧ (createRowBlock bv i row).lookupVar k = some v
    ∧ (∀ k2, k2 ≠ "talismanRowNum" → alook k2 row = none →
        (createRowBlock bv i row).lookupVar k2 = alook k2 bv) := by
  refine ⟨renderRowsLoop_enumFrom bv renderRow rows 0, ?_, ?_, ?_⟩
  · simp [RowBlock.lookupVar, createRowBlock, alook_jsSet_self]
  · simp [RowBlock.lookupVar, createRowBlock, alook_jsSet_other row "talismanRowNum" k _ hk,
      hrow]
  · intro k2 hk2 hnone
    simp [RowBlock.lookupVar, createRowBlock,
      alook_jsSet_other row "talismanRowNum" k2 _ hk2, hnone]

/-- Closed instance of claim C6 as amended: one inherited variable, two
rows, row index one, the row key a. -/
theorem iteratedRowsInOrderWitness :
    ("a" : String) ≠ "talismanRowNum"
    ∧ alook "a" exampleRow = some (JVal.num 1)
    ∧ (renderIterated [("inh", JVal.str ['z'])] [exampleRow, exampleRow]
          (fun b => (b.lookupVar "talismanRowNum").elim [] processScalar)
        = ([exampleRow, exampleRow].enum.map
            (fun p => (fun b => (b.lookupVar "talismanRowNum").elim [] processScalar)
              (createRowBlock [("inh", JVal.str ['z'])] p.1 p.2))).flatten
      ∧ (createRowBlock [("inh", JVal.str ['z'])] 1 exampleRow).lookupVar "talismanRowNum"
          = some (JVal.num 1)
      ∧ (createRowBlock [("inh", JVal.str ['z'])] 1 exampleRow).lookupVar "a"
          = some (JVal.num 1)
      ∧ (∀ k2, k2 ≠ "talismanRowNum" → alook k2 exampleRow = none →
          (createRowBlock [("inh", JVal.str ['z'])] 1 exampleRow).lookupVar k2
            = alook k2 [("inh", JVal.str ['z'])])) :=
  ⟨by decide, rfl,
    iteratedRowsInOrder [("inh", JVal.str ['z'])] [exampleRow, exampleRow]
      (fun b => (b.lookupVar "talismanRowNum").elim [] processScalar)
      exampleRow 1 "a" (JVal.num 1) (by decide) rfl⟩

/-! ## Claim C10: the host array is consumed and its rows mutated

The array branch (Renderer.js lines 83-107) drives the iteration off the
very array object the host passed to setIterator: each _read call runs
data.shift(), removing the first element of that array, and createRowBlock
(lines 50-69) writes vars.talismanRowNum = counter into the row object
itself before cloning the block around it.
-/

/-- The mutable state of the iteration: the host array, the closure
counter, and the row objects after their in-place mutation. -/
structure IterState where
  data : List VarMapJ
  counter : Nat
  mutatedRows : List VarMapJ
deriving Repr

/-- One renderQueue._read call of the array branch: when the host array
still has rows the first row is shifted off it and mutated with the
injected row number; when it is empty the stream ends (none). -/
def iterReadStep (st : IterState) : Option IterState :=
  match st.data with
  | [] => none
  | row :: rest =>
    some { data := rest,
           counter := st.counter + 1,
           mutatedRows := st.mutatedRows
             ++ [jsSet row "talismanRowNum" (JVal.num st.counter)] }

/-- Runs _read until the stream ends; fuel equal to the array length is
exactly enough. -/
def iterDrain : Nat → IterState → IterState
  | 0, st => st
  | fuel + 1, st =>
    match iterReadStep st with
    | none => st
    | some st2 => iterDrain fuel st2

theorem iterDrain_spec :
    ∀ (rows : List VarMapJ) (n : Nat) (acc : List VarMapJ),
      iterDrain rows.length { data := rows, counter := n, mutatedRows := acc }
        = { data := [], counter := n + rows.length,
            mutatedRows := acc ++ (List.enumFrom n rows).map
              (fun p => jsSet p.2 "talismanRowNum" (JVal.num p.1)) } := by
  intro rows
  induction rows with
  | nil => intro n acc; simp [iterDrain]
  | cons row rest ih =>
    intro n acc
    simp only [List.length_cons, iterDrain, iterReadStep, ih, List.enumFrom, List.map_cons]
    simp [List.append_assoc]
    omega

/-- Claim C10 (confirmed): after the iteration of an array data source
completes, the array the host passed in is empty (its rows were shifted
off destructively), and every row object has had the talismanRowNum
property written into it, in index order: the data source argument is not
treated as read-only. -/
theorem arrayIterationConsumesAndMutates (rows : List VarMapJ) :
    (iterDrain rows.length
        { data := rows, counter := 0, mutatedRows := [] }).data = []
    ∧ (iterDrain rows.length
        { data := rows, counter := 0, mutatedRows := [] }).mutatedRows
          = rows.enum.map (fun p => jsSet p.2 "talismanRowNum" (JVal.num p.1)) := by
  rw [iterDrain_spec rows 0 []]
  simp [List.enum]

/-! ## The public facade (talisman.js lines 84-327)

createTemplate builds a registry (blockmap) keyed by qualified block
names, with the root registered as __talisman_root__ and children as
root:child:grandchild.  Every facade operation that takes a block name
first resolves it through seekBlockByName and silently returns the facade
when no block is found.
-/

/-- The state of one block as the facade mutates it (Block.js fields).
The wait set holds promises whose contents never matter, modelled by its size. -/
structure ApiBlock where
  vars : VarMapJ
  masks : MaskTable
  isVisible : Bool
  dataSource : Option (List VarMapJ)
  waitingFor : Nat

/-- Block.setVariables (Block.js lines 118-131): assigns the pairs onto the
block's own table and adds the saved promise to the wait set. -/
def ApiBlock.setVariablesB (b : ApiBlock) (kv : VarMapJ) : ApiBlock :=
  { b with vars := kv.foldl (fun acc p => jsSet acc p.1 p.2) b.vars,
           waitingFor := b.waitingFor + 1 }

/-- Block.setDataSource (lines 142-145): stores the source and waits on it. -/
def ApiBlock.setDataSourceB (b : ApiBlock) (d : List VarMapJ) : ApiBlock :=
  { b with dataSource := some d, waitingFor := b.waitingFor + 1 }

/-- Block.addMask (lines 182-184). -/
def ApiBlock.addMaskB (b : ApiBlock) (name : String) (fn : List Char → List Char) :
    ApiBlock :=
  { b with masks := jsSet b.masks name fn }

/-- Block.removeMask (lines 194-196): deletes the own property. -/
def ApiBlock.removeMaskB (b : ApiBlock) (name : String) : ApiBlock :=
  { b with masks := b.masks.filter (fun p => p.1 ≠ name) }

/-- Block.setVisibility (lines 206-208). -/
def ApiBlock.setVisibilityB (b : ApiBlock) (v : Bool) : ApiBlock :=
  { b with isVisible := v }

/-- Block.waitUntil (lines 218-220): pushes the promise on the wait set. -/
def ApiBlock.waitUntilB (b : ApiBlock) : ApiBlock :=
  { b with waitingFor := b.waitingFor + 1 }

/-- The shared registry of one template instance. -/
abbrev Blockmap := List (String × ApiBlock)

/-- The root block name (talisman.js line 87). -/
def talismanRootName : String := "__talisman_root__"

/-- The qualified lookup key: [root, name].filter(truthy).join(colon) —
an absent or empty name falls back to the root itself. -/
def qualifyBlockName (name : String) : String :=
  if name = "" then talismanRootName else talismanRootName ++ ":" ++ name

/-- seekBlockByName (talisman.js lines 103-106). -/
def seekBlockByName (bm : Blockmap) (name : String) : Option ApiBlock :=
  alook (qualifyBlockName name) bm

/-- Applies a mutation to the named registry entry (the facade mutates the
found block in place; keys never change). -/
def updateBlock (bm : Blockmap) (name : String) (f : ApiBlock → ApiBlock) : Blockmap :=
  bm.map (fun p => if p.1 = qualifyBlockName name then (p.1, f p.2) else p)

/-- api.set (talisman.js lines 182-190). -/
def apiSet (bm : Blockmap) (kv : VarMapJ) (blockName : String) : Blockmap :=
  match seekBlockByName bm blockName with
  | some _ => updateBlock bm blockName (fun b => b.setVariablesB kv)
  | none => bm

/-- api.setIterator (lines 202-210). -/
def apiSetIterator (bm : Blockmap) (rows : List VarMapJ) (blockName : String) : Blockmap :=
  match seekBlockByName bm blockName with
  | some _ => updateBlock bm blockName (fun b => b.setDataSourceB rows)
  | none => bm

/-- api.remove (lines 143-151). -/
def apiRemove (bm : Blockmap) (blockName : String) : Blockmap :=
  match seekBlockByName bm blockName with
  | some _ => updateBlock bm blockName (fun b => b.setVisibilityB false)
  | none => bm

/-- api.restore (lines 162-170). -/
def apiRestore (bm : Blockmap) (blockName : String) : Blockmap :=
  match seekBlockByName bm blockName with
  | some _ => updateBlock bm blockName (fun b => b.setVisibilityB true)
  | none => bm

/-- api.addMask (lines 228-236). -/
def apiAddMask (bm : Blockmap) (name : String) (fn : List Char → List Char)
    (blockName : String) : Blockmap :=
  match seekBlockByName bm blockName with
  | some _ => updateBlock bm blockName (fun b => b.addMaskB name fn)
  | none => bm

/-- api.removeMask (lines 248-256). -/
def apiRemoveMask (bm : Blockmap) (name : String) (blockName : String) : Blockmap :=
  match seekBlockByName bm blockName with
  | some _ => updateBlock bm blockName (fun b => b.removeMaskB name)
  | none => bm

/-- api.waitUntil (lines 269-277). -/
def apiWaitUntil (bm : Blockmap) (blockName : String) : Blockmap :=
  match seekBlockByName bm blockName with
  | some _ => updateBlock bm blockName (fun b => b.waitUntilB)
  | none => bm

/-- Claim C9 (confirmed): every facade operation that takes a block name
(set, setIterator, remove, restore, addMask, removeMask, waitUntil) is a
silent no-op when the name does not resolve in the registry: the whole
registry is returned unchanged, so every block's variable table, mask
table, visibility flag, data source and wait set is untouched — and each
call returns the facade for chaining rather than raising or rejecting
(the operations are total functions on the registry). -/
theorem unknownBlockNameIsNoOp (bm : Blockmap) (name : String) (kv : VarMapJ)
    (rows : List VarMapJ) (mn : String) (fn : List Char → List Char)
    (h : seekBlockByName bm name = none) :
    apiSet bm kv name = bm
    ∧ apiSetIterator bm rows name = bm
    ∧ apiRemove bm name = bm
    ∧ apiRestore bm name = bm
    ∧ apiAddMask bm mn fn name = bm
    ∧ apiRemoveMask bm mn name = bm
    ∧ apiWaitUntil bm name = bm := by
  refine ⟨?_, ?_, ?_, ?_, ?_, ?_, ?_⟩ <;>
    simp [apiSet, apiSetIterator, apiRemove, apiRestore, apiAddMask,
      apiRemoveMask, apiWaitUntil, h]

/-- The root block as registered by createTemplate, for the witness. -/
def exampleRootBlock : ApiBlock :=
  { vars := [], masks := [], isVisible := true, dataSource := none, waitingFor := 1 }

/-- The registry of a freshly created template, holding only the root. -/
def exampleBlockmap : Blockmap := [(talismanRootName, exampleRootBlock)]

/-- Closed instance of claim C9: a registry holding only the root, and the
unknown block name missing. -/
theorem unknownBlockNameIsNoOpWitness :
    seekBlockByName exampleBlockmap "missing" = none
    ∧ (apiSet exampleBlockmap [("k", JVal.num 7)] "missing" = exampleBlockmap
      ∧ apiSetIterator exampleBlockmap [exampleRow] "missing" = exampleBlockmap
      ∧ apiRemove exampleBlockmap "missing" = exampleBlockmap
      ∧ apiRestore exampleBlockmap "missing" = exampleBlockmap
      ∧ apiAddMask exampleBlockmap "upper" (fun s => s) "missing" = exampleBlockmap
      ∧ apiRemoveMask exampleBlockmap "upper" "missing" = exampleBlockmap
      ∧ apiWaitUntil exampleBlockmap "missing" = exampleBlockmap) :=
  ⟨rfl, unknownBlockNameIsNoOp exampleBlockmap "missing" [("k", JVal.num 7)]
    [exampleRow] "upper" (fun s => s) rfl⟩

end Talisman
